import Mathlib

/-!
Verification development for the transaction-parsing core of the
PastelariaVinny_Navegantes repository.

The Python sources embedded here are:
  * scripts/json_to_csv_converter.py  (class JSONToCSVConverter)
  * scripts/txt_to_csv.py             (extract_transactions_from_ocr)
  * src/ocr/structured_ocr.py         (extract_text_with_confidence,
                                       clean_and_process_text)

Strings are modelled as `List Char`; Python `float` values arising from
parsing short decimal literals are modelled as `ℚ` (every value the code
manipulates has at most four integer digits and two fraction digits, a range
on which IEEE doubles are exact enough that all comparisons, maxima and
equality tests used by the code coincide with the rational ones).  The
specific regular expressions of the source are implemented as dedicated
matchers with Python `re` semantics (leftmost match, greedy bounded
quantifiers with backtracking, `findall` resuming after each match); all
scanners take an explicit fuel argument (always instantiated with the string
length, an upper bound on the number of scanning steps) so that every
definition is structurally recursive and kernel-reducible.
-/

namespace PastelariaVN

/-! ## Character classes (Python `re` semantics, `str` methods) -/

/-- Python `\d` (ASCII decimal digit, as matched by the source's patterns). -/
def isDigitC (c : Char) : Bool := '0' ≤ c && c ≤ '9'

/-- Python `\s` on the ASCII range (space, tab, newline, CR, VT, FF). -/
def isSpaceC (c : Char) : Bool :=
  c = ' ' || c = '\t' || c = '\n' || c = '\r' || c = '\x0b' || c = '\x0c'

/-- The accented letters the repository's texts use (Portuguese locale);
Python's unicode `\w` treats them as word characters. -/
def accentChars : List Char :=
  ['á','à','â','ã','é','è','ê','í','ì','î','ó','ò','ô','õ','ú','ù','û','ü','ç',
   'Á','À','Â','Ã','É','È','Ê','Í','Ì','Î','Ó','Ò','Ô','Õ','Ú','Ù','Û','Ü','Ç']

/-- Python `\w` restricted to the characters occurring in this repository's
data: ASCII alphanumerics, underscore, and the Portuguese accented letters. -/
def isWordC (c : Char) : Bool := c.isAlphanum || c = '_' || accentChars.contains c

def digitVal (c : Char) : Nat := c.toNat - 48

/-- Python `int` on a (nonempty) string of decimal digits. -/
def natOfDigits (l : List Char) : Nat := l.foldl (fun a c => a * 10 + digitVal c) 0

/-- Python `str.zfill(2)`. -/
def zfill2 (l : List Char) : List Char := List.replicate (2 - l.length) '0' ++ l

/-- Python `str.strip()`. -/
def stripChars (l : List Char) : List Char :=
  ((l.dropWhile isSpaceC).reverse.dropWhile isSpaceC).reverse

/-- Python `str.upper` on the ASCII letters (the source only ever inspects
the result for the substring "R$", so the ASCII case map is faithful). -/
def asciiUpperC (c : Char) : Char :=
  if 'a' ≤ c && c ≤ 'z' then Char.ofNat (c.toNat - 32) else c

/-- Python `str.lower` on the ASCII letters (the source lowercases month
abbreviations, which are ASCII). -/
def asciiLowerC (c : Char) : Char :=
  if 'A' ≤ c && c ≤ 'Z' then Char.ofNat (c.toNat + 32) else c

/-- Python `pat in hay` (substring containment). -/
def containsSub (hay pat : List Char) : Bool :=
  match hay with
  | [] => pat.isEmpty
  | _ :: rest => pat.isPrefixOf hay || containsSub rest pat

/-- Python `str.replace(pat, rep)` for a nonempty `pat`: leftmost,
non-overlapping, resuming after each replacement.  `fuel` is instantiated
with the string length. -/
def replaceSub (pat rep : List Char) : Nat → List Char → List Char
  | 0, l => l
  | _ + 1, [] => []
  | fuel + 1, c :: rest =>
    if pat.isPrefixOf (c :: rest) then
      rep ++ replaceSub pat rep fuel ((c :: rest).drop pat.length)
    else c :: replaceSub pat rep fuel rest

/-! ## Python `float()` on the strings the code feeds it

The code only calls `float` on strings made of digits, at most one decimal
point (after `','` was replaced by `'.'`), and possibly a sign or exponent;
`inf`/`nan`/underscore spellings never occur in this pipeline and are
modelled as parse failures.  A failing parse is Python's `ValueError`,
modelled as `none`. -/

def takeDigits (l : List Char) : List Char × List Char :=
  (l.takeWhile isDigitC, l.dropWhile isDigitC)

/-- Python `float(s)` (sign, decimal mantissa, optional exponent).  The
value `±(I + F/10^|F|)·10^±E` is built with a single `Rat.divInt` so that
it reduces inside the kernel. -/
def pyFloat (s : List Char) : Option ℚ :=
  let l := stripChars s
  let (neg, l1) : Bool × List Char :=
    match l with
    | '-' :: r => (true, r)
    | '+' :: r => (false, r)
    | _ => (false, l)
  let (ip, l2) := takeDigits l1
  let (fp, l3) :=
    match l2 with
    | '.' :: r => (some (takeDigits r).1, (takeDigits r).2)
    | _ => (none, l2)
  let fdigits := fp.getD []
  if ip.isEmpty && fdigits.isEmpty then none
  else
    let num0 : Nat := natOfDigits ip * 10 ^ fdigits.length + natOfDigits fdigits
    let mk : Nat → Nat → Option ℚ := fun n d =>
      some (Rat.divInt (if neg then -(n : Int) else (n : Int)) (d : Int))
    match l3 with
    | [] => mk num0 (10 ^ fdigits.length)
    | e :: r =>
      if e = 'e' || e = 'E' then
        let (esgn, r1) : Bool × List Char :=
          match r with
          | '-' :: r2 => (true, r2)
          | '+' :: r2 => (false, r2)
          | _ => (false, r)
        let (ed, r2) := takeDigits r1
        if ed.isEmpty || !r2.isEmpty then none
        else if esgn then mk num0 (10 ^ fdigits.length * 10 ^ natOfDigits ed)
        else mk (num0 * 10 ^ natOfDigits ed) (10 ^ fdigits.length)
      else none

/-! ## Generic scan drivers (Python `re.findall` / `re.search`)

A matcher receives the character preceding the current position (for `\b`
lookarounds) and the remaining characters; on success it returns the
captured groups and `n` with `n + 1` characters consumed (every pattern in
the source consumes at least one character).  `re.findall` resumes scanning
right after each match; `re.search` stops at the first. -/

def scanAll {α : Type} (m : Option Char → List Char → Option (α × Nat)) :
    Nat → Option Char → List Char → List α
  | 0, _, _ => []
  | _ + 1, _, [] => []
  | fuel + 1, prev, c :: rest =>
    match m prev (c :: rest) with
    | some (a, n) => a :: scanAll m fuel ((c :: rest).get? n) ((c :: rest).drop (n + 1))
    | none => scanAll m fuel (some c) rest

def findallM {α : Type} (m : Option Char → List Char → Option (α × Nat))
    (cs : List Char) : List α :=
  scanAll m cs.length none cs

def scanFirst {α : Type} (m : Option Char → List Char → Option (α × Nat)) :
    Nat → Option Char → List Char → Option α
  | 0, _, _ => none
  | _ + 1, _, [] => none
  | fuel + 1, prev, c :: rest =>
    match m prev (c :: rest) with
    | some (a, _) => some a
    | none => scanFirst m fuel (some c) rest

def searchM {α : Type} (m : Option Char → List Char → Option (α × Nat))
    (cs : List Char) : Option α :=
  scanFirst m cs.length none cs

/-- No word boundary required when `prev` is a non-word character or absent. -/
def bStartOf (prev : Option Char) : Bool :=
  match prev with
  | none => true
  | some p => !isWordC p

/-- Trailing `\b` after a word character: next char non-word, or end. -/
def bEndOf (rest : List Char) : Bool :=
  match rest with
  | [] => true
  | c :: _ => !isWordC c

/-! ## Amount Extractor — `JSONToCSVConverter.convert_value_to_float`

The Python function returns either a `float` or the sentinel string
`"Não encontrado"`; this union type is the codomain here. -/

/-- The union `float | "Não encontrado"` the converter's methods return. -/
inductive PyVal where
  | num (q : ℚ)
  | notFound
  deriving DecidableEq, Repr

/-- Matches `R\$` (with `re.IGNORECASE`, so also `r$`); returns the rest. -/
def rDollarIC (cs : List Char) : Option (List Char) :=
  match cs with
  | c :: '$' :: rest => if c = 'R' || c = 'r' then some rest else none
  | _ => none

/-- `[.,]` of the strategy-1 patterns. -/
def sepDec (c : Char) : Bool := c = '.' || c = ','

/-- After the currency marker: `(\d{1,4})[.,](\d{2})`.  The digit group is a
maximal run (the following separator is a non-digit, so Python's greedy
`{1,4}` with backtracking succeeds exactly when the whole run has length
1–4 and is followed by the separator). -/
def digitsSepTwo (r2 : List Char) (pre : Nat) : Option ((List Char × List Char) × Nat) :=
  let d := r2.takeWhile isDigitC
  if 1 ≤ d.length ∧ d.length ≤ 4 then
    match r2.drop d.length with
    | s :: e1 :: e2 :: _ =>
      if sepDec s && isDigitC e1 && isDigitC e2 then
        some ((d, [e1, e2]), pre + d.length + 3 - 1)
      else none
    | _ => none
  else none

/-- `r'R\$\s*(\d{1,4})[.,](\d{2})'` at the current position. -/
def p1At (_ : Option Char) (cs : List Char) : Option ((List Char × List Char) × Nat) := do
  let r1 ← rDollarIC cs
  let sp := r1.takeWhile isSpaceC
  digitsSepTwo (r1.drop sp.length) (2 + sp.length)

/-- `r'R\$\.(\d{1,4})[.,](\d{2})'` at the current position. -/
def p2At (_ : Option Char) (cs : List Char) : Option ((List Char × List Char) × Nat) := do
  let r1 ← rDollarIC cs
  match r1 with
  | '.' :: r2 => digitsSepTwo r2 3
  | _ => none

/-- `r'R\$(\d{1,4})[.,](\d{2})'` at the current position. -/
def p3At (_ : Option Char) (cs : List Char) : Option ((List Char × List Char) × Nat) := do
  let r1 ← rDollarIC cs
  digitsSepTwo r1 2

/-- `r'R\$\s*(\d{1,4})\s+(\d{2})'` at the current position. -/
def p4At (_ : Option Char) (cs : List Char) : Option ((List Char × List Char) × Nat) := do
  let r1 ← rDollarIC cs
  let sp := r1.takeWhile isSpaceC
  let r2 := r1.drop sp.length
  let d := r2.takeWhile isDigitC
  if 1 ≤ d.length ∧ d.length ≤ 4 then
    let r3 := r2.drop d.length
    let sp2 := r3.takeWhile isSpaceC
    if sp2.length ≥ 1 then
      match r3.drop sp2.length with
      | e1 :: e2 :: _ =>
        if isDigitC e1 && isDigitC e2 then
          some ((d, [e1, e2]), 2 + sp.length + d.length + sp2.length + 2 - 1)
        else none
      | _ => none
    else none
  else none

/-- `re.sub(r'R\$[:\s\.]*', '', s)` (case-sensitive, as in the source). -/
def subRDollarTrail : Nat → List Char → List Char
  | 0, l => l
  | _ + 1, [] => []
  | fuel + 1, 'R' :: '$' :: rest =>
    subRDollarTrail fuel (rest.dropWhile fun c => c = ':' || isSpaceC c || c = '.')
  | fuel + 1, c :: rest => c :: subRDollarTrail fuel rest

/-- `re.sub(r'R\$[:\s]*', '', s, flags=re.IGNORECASE)` (strategy 3). -/
def subRDollarIC : Nat → List Char → List Char
  | 0, l => l
  | _ + 1, [] => []
  | fuel + 1, c :: rest =>
    match rest with
    | '$' :: r2 =>
      if c = 'R' || c = 'r' then
        subRDollarIC fuel (r2.dropWhile fun d => d = ':' || isSpaceC d)
      else c :: subRDollarIC fuel rest
    | _ => c :: subRDollarIC fuel rest

/-- `r'\b(\d{1,4})X(\d{2})\b'` for a separator `X` (`,` or `.`), at the
current position; both `\b` checks included. -/
def mlDecAt (sep : Char) (prev : Option Char) (cs : List Char) :
    Option ((List Char × List Char) × Nat) :=
  if !bStartOf prev then none
  else
    let d := cs.takeWhile isDigitC
    if 1 ≤ d.length ∧ d.length ≤ 4 then
      match cs.drop d.length with
      | s :: e1 :: e2 :: rest =>
        if s = sep && isDigitC e1 && isDigitC e2 && bEndOf rest then
          some ((d, [e1, e2]), d.length + 3 - 1)
        else none
      | _ => none
    else none

/-- `float(f"{match[0]}.{match[1]}")`: the numeric value of a strategy match
(integer digits, two fraction digits). -/
def valOfMatch (p : List Char × List Char) : ℚ :=
  Rat.divInt (natOfDigits p.1 * 100 + natOfDigits p.2) 100

/-- The strategy-2 time filter of `convert_value_to_float` (lines 127–132 and
141–146): a marker-less decimal pair is kept as an amount candidate exactly
when this returns `true`.  The translation keeps the source's dead
`elif int(match[0]) > 23` branch. -/
def strategy2Keep (a b : Nat) : Bool :=
  if !(decide (0 ≤ a) && decide (a ≤ 23) && decide (0 ≤ b) && decide (b ≤ 59)) then true
  else if 23 < a then true
  else false

/-- Python `list(set(found_values))` followed only by `max`/filters: dedup
keeping first occurrences (the set's iteration order is unspecified in
Python, but every later use — `max` and a value filter — is
order-independent, so this choice is faithful). -/
def dedupFirst : List ℚ → List ℚ
  | [] => []
  | x :: xs => x :: (dedupFirst xs).filter (fun y => y ≠ x)

def maxOfList (x : ℚ) (xs : List ℚ) : ℚ := xs.foldl max x

/-- Lines 150–160: dedup, prefer the maximum value ≥ 1.0, else the maximum. -/
def selectValue (l : List ℚ) : PyVal :=
  let d := dedupFirst l
  match d.filter (fun v => 1 ≤ v) with
  | v :: vs => .num (maxOfList v vs)
  | [] =>
    match d with
    | v :: vs => .num (maxOfList v vs)
    | [] => .notFound

/-- Strategy 3 (lines 162–171): only if `'R$'` occurs in the uppercased
string, strip the marker, replace `,` by `.` and parse as float; a
`ValueError` falls through to the sentinel. -/
def strategy3 (cs : List Char) : PyVal :=
  if containsSub (cs.map asciiUpperC) ['R', '$'] then
    let cl := subRDollarIC cs.length cs
    let cl2 := (stripChars cl).map (fun c => if c = ',' then '.' else c)
    match pyFloat cl2 with
    | some q => .num q
    | none => .notFound
  else .notFound

/-- `JSONToCSVConverter.convert_value_to_float` (lines 87–173). -/
def convert_value_to_float (value_string : String) : PyVal :=
  let cs := value_string.data
  if cs.isEmpty then .notFound
  else
    let found1 :=
      (findallM p1At cs ++ findallM p2At cs ++ findallM p3At cs ++ findallM p4At cs).map
        valOfMatch
    if !found1.isEmpty then selectValue found1
    else
      let cleaned := subRDollarTrail cs.length cs
      let commas := findallM (mlDecAt ',') cleaned
      let keptC := (commas.filter fun p =>
        strategy2Keep (natOfDigits p.1) (natOfDigits p.2)).map valOfMatch
      if !keptC.isEmpty then selectValue keptC
      else
        let dots := findallM (mlDecAt '.') cleaned
        let keptD := (dots.filter fun p =>
          strategy2Keep (natOfDigits p.1) (natOfDigits p.2)).map valOfMatch
        if !keptD.isEmpty then selectValue keptD
        else strategy3 cs

/-! ## Time Extractor — `JSONToCSVConverter.extract_time_from_text`

Pattern: `r'\b([0-9]?[0-9])[:°]([0-5][0-9])\b'`, with `re.findall`. -/

/-- `[:°]`. -/
def sepTime (c : Char) : Bool := c = ':' || c = '°'

/-- The time pattern at the current position: greedy two-digit hour first,
then the one-digit alternative, each with both `\b` checks. -/
def timeAt (prev : Option Char) (cs : List Char) : Option ((List Char × List Char) × Nat) :=
  if !bStartOf prev then none
  else
    let two :=
      match cs with
      | d1 :: d2 :: s :: m1 :: m2 :: rest =>
        if isDigitC d1 && isDigitC d2 && sepTime s && ('0' ≤ m1 && m1 ≤ '5') &&
            isDigitC m2 && bEndOf rest then
          some (([d1, d2], [m1, m2]), 4)
        else none
      | _ => none
    match two with
    | some r => some r
    | none =>
      match cs with
      | d1 :: s :: m1 :: m2 :: rest =>
        if isDigitC d1 && sepTime s && ('0' ≤ m1 && m1 ≤ '5') && isDigitC m2 &&
            bEndOf rest then
          some (([d1], [m1, m2]), 3)
        else none
      | _ => none

/-- `re.findall(self.time_pattern, text)`. -/
def findTimeMatches (cs : List Char) : List (List Char × List Char) :=
  findallM timeAt cs

/-- Lines 71–83: the formatting applied to the first match — the leading
`7`/`9` OCR-confusion remap, `zfill(2)`, validity check, `(ATENÇÃO)` tag. -/
def formatTimeMatch (p : List Char × List Char) : String :=
  let hour := p.1
  let hour := if hour.head? = some '7' || hour.head? = some '9' then '1' :: hour.tail else hour
  let h2 := zfill2 hour
  let m2 := zfill2 p.2
  if natOfDigits h2 < 24 ∧ natOfDigits m2 < 60 then String.mk (h2 ++ ':' :: m2)
  else String.mk (h2 ++ ':' :: m2) ++ " (ATENÇÃO)"

/-- `JSONToCSVConverter.extract_time_from_text` (lines 60–85): only
`matches[0]` is used. -/
def extract_time_from_text (text : String) : String :=
  if text.data.isEmpty then "Não encontrado"
  else
    match findTimeMatches text.data with
    | [] => "Não encontrado"
    | p :: _ => formatTimeMatch p

/-! ## Date Extractor — `JSONToCSVConverter.convert_date_format` -/

/-- `re.sub(r'\s+', ' ', s)`. -/
def collapseSpaces : Nat → List Char → List Char
  | 0, l => l
  | _ + 1, [] => []
  | fuel + 1, c :: rest =>
    if isSpaceC c then ' ' :: collapseSpaces fuel (rest.dropWhile isSpaceC)
    else c :: collapseSpaces fuel rest

/-- The converter's `month_mapping`; `dict.get(k, '01')`. -/
def monthLookup (w : List Char) : String :=
  if w = ['j','a','n'] then "01" else if w = ['f','e','v'] then "02"
  else if w = ['m','a','r'] then "03" else if w = ['a','b','r'] then "04"
  else if w = ['m','a','i'] then "05" else if w = ['j','u','n'] then "06"
  else if w = ['j','u','l'] then "07" else if w = ['a','g','o'] then "08"
  else if w = ['s','e','t'] then "09" else if w = ['o','u','t'] then "10"
  else if w = ['n','o','v'] then "11" else if w = ['d','e','z'] then "12"
  else "01"

/-- `re.match(r'(\d{1,2})\s+(\w{3,4})\s+(\d{4})', s)` — anchored at the
start; each bounded greedy group is followed by a disjoint class, so it
matches exactly the maximal runs of the right lengths. -/
def dateMatchAt (cs : List Char) : Option (List Char × List Char × List Char) :=
  let d1 := cs.takeWhile isDigitC
  if 1 ≤ d1.length ∧ d1.length ≤ 2 then
    let r1 := cs.drop d1.length
    let sp1 := r1.takeWhile isSpaceC
    if sp1.length ≥ 1 then
      let r2 := r1.drop sp1.length
      let w := r2.takeWhile isWordC
      if 3 ≤ w.length ∧ w.length ≤ 4 then
        let r3 := r2.drop w.length
        let sp2 := r3.takeWhile isSpaceC
        if sp2.length ≥ 1 then
          let r4 := r3.drop sp2.length
          let d2 := r4.takeWhile isDigitC
          if d2.length ≥ 4 then some (d1, w, d2.take 4) else none
        else none
      else none
    else none
  else none

/-- Lines 42–43: strip, remove the dots, collapse whitespace runs. -/
def normalizeDate (s : String) : List Char :=
  let n1 := (stripChars s.data).filter (fun c => c ≠ '.')
  collapseSpaces n1.length n1

/-- The success path of lines 49–56. -/
def formatDate (d1 w y : List Char) : String :=
  String.mk (zfill2 d1) ++ "/" ++ monthLookup ((w.map asciiLowerC).take 3) ++ "/" ++
    String.mk y

/-- `JSONToCSVConverter.convert_date_format` (lines 30–58). -/
def convert_date_format (date_string : List String) : String :=
  match date_string.find? (fun s => decide (s ≠ "" ∧ s ≠ "Data não identificada")) with
  | none => "Não encontrado"
  | some s =>
    match dateMatchAt (normalizeDate s) with
    | some (d1, w, y) => formatDate d1 w y
    | none => "Não encontrado"

/-! ## Associator pieces of `json_to_csv_converter.py` -/

/-- `JSONToCSVConverter.validate_minimum_value` (lines 175–187). -/
def validate_minimum_value (v : PyVal) : PyVal :=
  match v with
  | .num q => if 1 ≤ q then .num q else .notFound
  | .notFound => .notFound

/-- One entry of a JSON file's `transactions` array, restricted to the
fields `process_single_json` reads for time/amount extraction. -/
structure TxIn where
  raw_text : String
  processed_text : String
  amount : String

/-- Lines 245–252 of `process_single_json`: the `has_valid_value` /
`has_valid_time` checks and the skip decision, applied to the extracted
time string and the already-validated value. -/
def emitDecision (time_str : String) (v2 : PyVal) : Option (String × PyVal) :=
  if (match v2 with | PyVal.num q => decide (1 ≤ q) | PyVal.notFound => false) ||
      decide (time_str ≠ "Não encontrado") then
    some (time_str, v2)
  else none

/-- The per-transaction body of `JSONToCSVConverter.process_single_json`
(lines 217–266), returning the emitted `(Hora, Valor)` pair or `none` when
the transaction is skipped.  (`Data`, `Tipo de Venda` and the reference
filename are constants of the surrounding file and carry no logic.) -/
def processTransaction (tx : TxIn) : Option (String × PyVal) :=
  let time_str := extract_time_from_text tx.raw_text
  let v0 : Option PyVal :=
    if tx.amount ≠ "" then
      match convert_value_to_float tx.amount with
      | .num q =>
        if q < 1 then
          match convert_value_to_float tx.processed_text with
          | .num q2 => if q < q2 then some (.num q2) else some (.num q)
          | .notFound => some (.num q)
        else some (.num q)
      | .notFound => some .notFound
    else none
  let v1 : PyVal :=
    match v0 with
    | none => convert_value_to_float tx.processed_text
    | some .notFound => convert_value_to_float tx.processed_text
    | some v => v
  emitDecision time_str (validate_minimum_value v1)

/-! ## OCR Ensemble — `AdvancedOCR.extract_text_with_confidence`
(structured_ocr.py lines 234–248): deduplication of the collected strategy
outputs and the heuristic confidence estimate. -/

/-- Lines 235–239: trim, drop empties, drop exact duplicates, keeping
first-occurrence order. -/
def uniqueTexts (all_texts : List String) : List String :=
  all_texts.foldl (fun acc t =>
    let c := String.mk (stripChars t.data)
    if c ≠ "" ∧ ¬ acc.contains c then acc ++ [c] else acc) []

/-- `min(90, 30 + (len(unique_texts) * 10))`. -/
def estimatedConfidence (n : Nat) : Nat := min 90 (30 + n * 10)

/-- `"\n".join`. -/
def joinNL : List String → String
  | [] => ""
  | [s] => s
  | s :: rest => s ++ "\n" ++ joinNL rest

/-- The merge step of `extract_text_with_confidence` (lines 241–247): from
the collected per-strategy texts to `(combined_text, estimated_confidence)`. -/
def extract_text_merge (all_texts : List String) : String × Nat :=
  let u := uniqueTexts all_texts
  if !u.isEmpty then (joinNL u, estimatedConfidence u.length)
  else ("", 0)

/-! ## `StructuredTransactionOCR.clean_and_process_text`
(structured_ocr.py lines 563–588). -/

/-- `re.sub(r'R\s*\$', 'R$', s)`. -/
def subRSpDollar : Nat → List Char → List Char
  | 0, l => l
  | _ + 1, [] => []
  | fuel + 1, 'R' :: rest =>
    (match rest.drop (rest.takeWhile isSpaceC).length with
     | '$' :: r2 => 'R' :: '$' :: subRSpDollar fuel r2
     | _ => 'R' :: subRSpDollar fuel rest)
  | fuel + 1, c :: rest => c :: subRSpDollar fuel rest

/-- The character class kept by the cleanup sub (line 580):
`[\w\s\.,\-\+\$R\(\)\/:\°]` plus the listed accented letters (which are
already in `isWordC`). -/
def allowedCleanChar (c : Char) : Bool :=
  isWordC c || isSpaceC c || c = '.' || c = ',' || c = '-' || c = '+' || c = '$' ||
    c = 'R' || c = '(' || c = ')' || c = '/' || c = ':' || c = '°'

/-- `StructuredTransactionOCR.clean_and_process_text`. -/
def clean_and_process_text (raw_text : String) : String :=
  if raw_text.data.isEmpty then ""
  else
    let t1 := replaceSub ['R','S'] ['R','$'] raw_text.data.length raw_text.data
    let t2 := replaceSub ['R','8'] ['R','$'] t1.length t1
    let t3 := replaceSub ['R','§'] ['R','$'] t2.length t2
    let t4 := subRSpDollar t3.length t3
    let t5 := t4.map (fun c => if allowedCleanChar c then c else ' ')
    let t6 := collapseSpaces t5.length t5
    String.mk (stripChars t6)

/-! ## `txt_to_csv.extract_transactions_from_ocr`

The function's file I/O and header/section slicing only produce the line
list `linhas`, the formatted date, the sale type and the reference string;
the transaction logic (lines 57–224) is embedded below, parameterised by
those values. -/

/-- An entry of `valores_encontrados`. -/
structure ValorInfo where
  linha : Nat
  valor : List Char
  valorFloat : ℚ
  deriving DecidableEq, Repr

/-- An entry of `horarios_encontrados`. -/
structure HoraInfo where
  linha : Nat
  hora : String
  deriving DecidableEq, Repr

/-- One output record (the five CSV fields). -/
structure Transacao where
  data : String
  hora : String
  valor : String
  tipo : String
  arquivo : String
  deriving DecidableEq, Repr

/-- `re.search(r'R\$\s*([\d,\.]+)', linha)` at the current position
(case-sensitive `R`). -/
def valorTxtAt (_ : Option Char) (cs : List Char) : Option (List Char × Nat) :=
  match cs with
  | 'R' :: '$' :: r1 =>
    let sp := r1.takeWhile isSpaceC
    let r2 := r1.drop sp.length
    let d := r2.takeWhile (fun c => isDigitC c || c = ',' || c = '.')
    if d.length ≥ 1 then some (d, 2 + sp.length + d.length - 1) else none
  | _ => none

/-- `re.search(r'(\d{1,2}):(\d{2})', linha)` at the current position
(greedy two-digit hour, then the one-digit alternative; no `\b`). -/
def hhmmAt (_ : Option Char) (cs : List Char) : Option ((List Char × List Char) × Nat) :=
  let two :=
    match cs with
    | d1 :: d2 :: ':' :: m1 :: m2 :: _ =>
      if isDigitC d1 && isDigitC d2 && isDigitC m1 && isDigitC m2 then
        some (([d1, d2], [m1, m2]), 4)
      else none
    | _ => none
  match two with
  | some r => some r
  | none =>
    match cs with
    | d1 :: ':' :: m1 :: m2 :: _ =>
      if isDigitC d1 && isDigitC m1 && isDigitC m2 then some (([d1], [m1, m2]), 3)
      else none
    | _ => none

/-- `re.search(r'(\d{1,2})\s*[«.]', linha)` at the current position. -/
def horaSimplesAt (_ : Option Char) (cs : List Char) : Option (List Char × Nat) :=
  let attempt := fun (d : List Char) (rest : List Char) =>
    let sp := rest.takeWhile isSpaceC
    match rest.drop sp.length with
    | c :: _ =>
      if c = '«' || c = '.' then some (d, d.length + sp.length + 1 - 1) else none
    | [] => none
  match cs with
  | d1 :: d2 :: rest =>
    if isDigitC d1 then
      if isDigitC d2 then
        match attempt [d1, d2] rest with
        | some r => some r
        | none => attempt [d1] (d2 :: rest)
      else attempt [d1] (d2 :: rest)
    else none
  | [d1] => if isDigitC d1 then attempt [d1] [] else none
  | [] => none

/-- `horarios_validos = [14, .., 23]`. -/
def horariosValidos : List Nat := [14, 15, 16, 17, 18, 19, 20, 21, 22, 23]

/-- `int(hora.split(':')[0])` on a stored time string (always digit-colon
formatted when the code evaluates it). -/
def horaIntOf (s : String) : Nat :=
  natOfDigits ((s.data.takeWhile (fun c => c ≠ ':')))

/-- The line filter of lines 57–64: drop `^=+$` marker lines and blanks. -/
def filtraLinhas (linhas : List String) : List String :=
  linhas.filter fun l =>
    let t := stripChars l.data
    decide (¬ (t ≠ [] ∧ t.all (fun c => c = '=')) ∧ t ≠ [])

/-- The state threaded through the first pass: collected values, collected
times, and the `horarios_processados` dedup keys. -/
structure PassState where
  valores : List ValorInfo
  horas : List HoraInfo
  processados : List String
  deriving Repr

/-- The time-search half of one first-pass iteration (lines 98–138),
applied to the stripped line `l` at index `i`. -/
def coletaHora (i : Nat) (l : List Char) (st : PassState) : PassState :=
  match searchM hhmmAt l with
  | some (g1, g2) =>
    let hora := zfill2 g1
    let horaInt := natOfDigits hora
    let minutoInt := natOfDigits g2
    if horariosValidos.contains horaInt ∧ minutoInt ≤ 59 then
      let horaF := String.mk (hora ++ ':' :: g2)
      let chave := horaF ++ "_" ++ toString i
      if ¬ st.processados.contains chave then
        { st with processados := st.processados ++ [chave],
                  horas := st.horas ++ [⟨i, horaF⟩] }
      else st
    else st
  | none =>
    match searchM horaSimplesAt l with
    | some g1 =>
      let hora := zfill2 g1
      let horaInt := natOfDigits hora
      if horariosValidos.contains horaInt then
        let horaF := String.mk (hora ++ [':', '0', '0'])
        let chave := horaF ++ "_" ++ toString i
        if ¬ st.processados.contains chave then
          { st with processados := st.processados ++ [chave],
                    horas := st.horas ++ [⟨i, horaF⟩] }
        else st
      else st
    | none => st

/-- One first-pass iteration (lines 77–138) on the raw line at index `i`:
value search (with the `-R$` guard and the `> 2.0` floor; a `ValueError`
from `float` executes `continue`, skipping the line's time search), then
time search. -/
def passoLinha (i : Nat) (linhaRaw : String) (st : PassState) : PassState :=
  let l := stripChars linhaRaw.data
  if l.isEmpty then st
  else
    match searchM valorTxtAt l with
    | some d =>
      if containsSub l ['-', 'R', '$'] then coletaHora i l st
      else
        match pyFloat (d.map fun c => if c = ',' then '.' else c) with
        | some q =>
          let st1 := if 2 < q then { st with valores := st.valores ++ [⟨i, d, q⟩] } else st
          coletaHora i l st1
        | none => st
    | none => coletaHora i l st

/-- The whole first pass (`for i, linha in enumerate(linhas)`). -/
def primeiraPassagemGo (i : Nat) : List String → PassState → PassState
  | [], st => st
  | l :: rest, st => primeiraPassagemGo (i + 1) rest (passoLinha i l st)

def primeiraPassagem (linhas : List String) : PassState :=
  primeiraPassagemGo 0 linhas ⟨[], [], []⟩

/-- The inner search of the second pass (lines 153–165): the nearest
not-yet-used valid time within 3 lines.  The accumulator mirrors the
Python triple `(hora_encontrada, melhor_distancia, melhor_horario_info)`
with `none` as `float('inf')`. -/
def buscaMelhor (usados : List String) (valorLinha : Nat) :
    List HoraInfo → String × Option Nat × Option HoraInfo → String × Option Nat × Option HoraInfo
  | [], acc => acc
  | h :: hs, (horaE, melhorD, melhorI) =>
    let dist := max h.linha valorLinha - min h.linha valorLinha
    let distMelhor : Bool := match melhorD with | none => true | some m => dist < m
    if horariosValidos.contains (horaIntOf h.hora) ∧ ¬ usados.contains h.hora ∧
        dist ≤ 3 ∧ distMelhor then
      buscaMelhor usados valorLinha hs (h.hora, some dist, some h)
    else
      buscaMelhor usados valorLinha hs (horaE, melhorD, melhorI)

/-- The record built for one value (lines 171–180). -/
def mkTransacao (dataF tipo arq : String) (hora : String) (v : ValorInfo) : Transacao :=
  ⟨dataF, hora, "R$ " ++ String.mk v.valor, tipo, arq⟩

/-- The second pass (lines 140–180), structurally recursive over
`valores_encontrados` with the `horarios_usados_no_arquivo` set and the
output list as accumulators. -/
def segundaPassagemGo (dataF tipo arq : String) (hs : List HoraInfo) :
    List ValorInfo → List String → List Transacao → List Transacao
  | [], _, ts => ts
  | v :: vs, usados, ts =>
    let r := buscaMelhor usados v.linha hs ("não encontrado", none, none)
    let usados' := match r.2.2 with | some _ => usados ++ [r.1] | none => usados
    segundaPassagemGo dataF tipo arq hs vs usados' (ts ++ [mkTransacao dataF tipo arq r.1 v])

def segundaPassagem (dataF tipo arq : String) (vs : List ValorInfo)
    (hs : List HoraInfo) : List Transacao :=
  segundaPassagemGo dataF tipo arq hs vs [] []

/-- `horarios_usados` of the third pass (lines 183–188). -/
def horariosUsadosDe (trans : List Transacao) : List String :=
  (trans.filter fun t => decide (t.hora ≠ "não encontrado")).map Transacao.hora

/-- The orphan pass (lines 190–212), recursive over `horarios_encontrados`
with the `horarios_orfaos_adicionados` set as accumulator. -/
def terceiraPassagemGo (dataF tipo arq : String) (usados : List String) :
    List HoraInfo → List String → List Transacao → List Transacao
  | [], _, ts => ts
  | h :: hs, adicionados, ts =>
    if horariosValidos.contains (horaIntOf h.hora) ∧ ¬ usados.contains h.hora ∧
        ¬ adicionados.contains h.hora then
      terceiraPassagemGo dataF tipo arq usados hs (adicionados ++ [h.hora])
        (ts ++ [⟨dataF, h.hora, "não encontrado", tipo, arq⟩])
    else terceiraPassagemGo dataF tipo arq usados hs adicionados ts

def terceiraPassagem (dataF tipo arq : String) (trans : List Transacao)
    (hs : List HoraInfo) : List Transacao :=
  terceiraPassagemGo dataF tipo arq (horariosUsadosDe trans) hs [] trans

/-- Python string `<` (lexicographic on code points). -/
def strLtB (a b : String) : Bool :=
  let rec go : List Char → List Char → Bool
    | [], [] => false
    | [], _ :: _ => true
    | _ :: _, [] => false
    | c :: cr, d :: dr => if c.toNat < d.toNat then true
        else if d.toNat < c.toNat then false else go cr dr
  go a.data b.data

/-- The `sort_key` of lines 215–220. -/
def sortKey (t : Transacao) : String :=
  if t.hora = "não encontrado" then "99:99"
  else if t.valor = "não encontrado" then t.hora ++ "_orphan"
  else t.hora

/-- Stable insertion: `a` goes before the first element whose key is not
smaller — the unique stable ascending order, which is what Python's
(stable) `list.sort(key=...)` produces. -/
def ordIns (a : Transacao) : List Transacao → List Transacao
  | [] => [a]
  | b :: l => if strLtB (sortKey b) (sortKey a) then b :: ordIns a l else a :: b :: l

def sortTransacoes : List Transacao → List Transacao
  | [] => []
  | a :: l => ordIns a (sortTransacoes l)

/-- The line list the passes run on: the filtered section re-joined with
`'\n'` and re-split (`''.split('\n')` is `[""]` when nothing survives the
filter, and the identity otherwise, since filtered lines contain no
newline). -/
def linhasDe (rawLinhas : List String) : List String :=
  let fl := filtraLinhas rawLinhas
  if fl.isEmpty then [""] else fl

/-- `extract_transactions_from_ocr` from the filtered text section down
(lines 57–224); `dataF`, `tipo` and `arq` are the header-derived constants. -/
def extract_transactions_core (dataF tipo arq : String) (rawLinhas : List String) :
    List Transacao :=
  sortTransacoes
    (terceiraPassagem dataF tipo arq
      (segundaPassagem dataF tipo arq (primeiraPassagem (linhasDe rawLinhas)).valores
        (primeiraPassagem (linhasDe rawLinhas)).horas)
      (primeiraPassagem (linhasDe rawLinhas)).horas)

/-! ## Helper lemmas about the association passes -/

theorem contains_iff {α : Type} [BEq α] [LawfulBEq α] (l : List α) (a : α) :
    l.contains a = true ↔ a ∈ l := by
  simp [List.contains]

theorem ordIns_perm (a : Transacao) (l : List Transacao) : (ordIns a l).Perm (a :: l) := by
  induction l with
  | nil => exact List.Perm.refl _
  | cons b l ih =>
    unfold ordIns
    split
    · exact (List.Perm.cons b ih).trans (List.Perm.swap a b l)
    · exact List.Perm.refl _

theorem sortTransacoes_perm (l : List Transacao) : (sortTransacoes l).Perm l := by
  induction l with
  | nil => exact List.Perm.refl _
  | cons a l ih => exact (ordIns_perm a (sortTransacoes l)).trans (List.Perm.cons a ih)

/-- Two records may share a time only when the first's is the sentinel. -/
def hrel (a b : Transacao) : Prop := a.hora = "não encontrado" ∨ a.hora ≠ b.hora

theorem pairwise_countP_le_one (l : List Transacao) (hp : l.Pairwise hrel) (h : String)
    (hh : h ≠ "não encontrado") : l.countP (fun t => t.hora == h) ≤ 1 := by
  induction l with
  | nil => simp
  | cons a l ih =>
    rw [List.countP_cons]
    rcases List.pairwise_cons.mp hp with ⟨ha, hp2⟩
    by_cases hah : a.hora = h
    · have hz : l.countP (fun t => t.hora == h) = 0 := by
        apply List.countP_eq_zero.mpr
        intro b hb hbh
        have hbe : b.hora = h := by simpa using hbh
        rcases ha b hb with h1 | h2
        · exact hh (hah ▸ h1)
        · exact h2 (hah.trans hbe.symm)
      simp [hz, hah]
    · have hfa : (fun t : Transacao => t.hora == h) a = false := by simpa using hah
      simp only [hfa]
      simpa using ih hp2

theorem buscaMelhor_cases (usados : List String) (vl : Nat) (hs : List HoraInfo)
    (acc : String × Option Nat × Option HoraInfo) :
    buscaMelhor usados vl hs acc = acc ∨
      ∃ i ∈ hs, (buscaMelhor usados vl hs acc).1 = i.hora ∧
        (buscaMelhor usados vl hs acc).2.2 = some i ∧ usados.contains i.hora = false := by
  induction hs generalizing acc with
  | nil => exact Or.inl rfl
  | cons h hs ih =>
    obtain ⟨horaE, melhorD, melhorI⟩ := acc
    simp only [buscaMelhor]
    split
    · rename_i hcond
      rcases ih (h.hora, some (max h.linha vl - min h.linha vl), some h) with heq | ⟨i, hi, h1, h2, h3⟩
      · rw [heq]
        exact Or.inr ⟨h, List.mem_cons_self .., rfl, rfl, by simpa using hcond.2.1⟩
      · exact Or.inr ⟨i, List.mem_cons_of_mem _ hi, h1, h2, h3⟩
    · rcases ih (horaE, melhorD, melhorI) with heq | ⟨i, hi, h1, h2, h3⟩
      · exact Or.inl heq
      · exact Or.inr ⟨i, List.mem_cons_of_mem _ hi, h1, h2, h3⟩

/-- The invariant of the association pass: every non-sentinel time in the
output is registered in `horarios_usados_no_arquivo`, the non-sentinel
times are pairwise distinct, and every time comes from a collected
candidate. -/
theorem segundaPassagemGo_master (dataF tipo arq : String) (hs : List HoraInfo) :
    ∀ (vs : List ValorInfo) (usados : List String) (ts : List Transacao),
      (∀ t ∈ ts, t.hora ≠ "não encontrado" → usados.contains t.hora = true) →
      ts.Pairwise hrel →
      (∀ t ∈ ts, t.hora = "não encontrado" ∨ ∃ i ∈ hs, t.hora = i.hora) →
      ((segundaPassagemGo dataF tipo arq hs vs usados ts).Pairwise hrel ∧
       ∀ t ∈ segundaPassagemGo dataF tipo arq hs vs usados ts,
          t.hora = "não encontrado" ∨ ∃ i ∈ hs, t.hora = i.hora) := by
  intro vs
  induction vs with
  | nil => intro usados ts h1 h2 h3; exact ⟨h2, h3⟩
  | cons v vs ih =>
    intro usados ts h1 h2 h3
    rw [segundaPassagemGo]
    rcases buscaMelhor_cases usados v.linha hs ("não encontrado", none, none) with
      heq | ⟨i, hi, hr1, hr2, hr3⟩
    · rw [heq]
      apply ih usados (ts ++ [mkTransacao dataF tipo arq "não encontrado" v])
      · intro t ht htn
        rcases List.mem_append.mp ht with hmem | hmem
        · exact h1 t hmem htn
        · rw [List.mem_singleton.mp hmem] at htn
          exact absurd rfl htn
      · rw [List.pairwise_append]
        refine ⟨h2, List.pairwise_singleton .., ?_⟩
        intro a ha b hb
        rw [List.mem_singleton.mp hb]
        by_cases han : a.hora = "não encontrado"
        · exact Or.inl han
        · exact Or.inr han
      · intro t ht
        rcases List.mem_append.mp ht with hmem | hmem
        · exact h3 t hmem
        · rw [List.mem_singleton.mp hmem]
          exact Or.inl rfl
    · rcases hb : buscaMelhor usados v.linha hs ("não encontrado", none, none) with ⟨bh, bd, bi⟩
      rw [hb] at hr1 hr2
      simp only at hr1 hr2
      subst hr1 hr2
      simp only [hb]
      apply ih (usados ++ [i.hora]) (ts ++ [mkTransacao dataF tipo arq i.hora v])
      · intro t ht htn
        rcases List.mem_append.mp ht with hmem | hmem
        · rw [contains_iff]
          exact List.mem_append_left _ ((contains_iff usados t.hora).mp (h1 t hmem htn))
        · rw [List.mem_singleton.mp hmem]
          rw [contains_iff]
          exact List.mem_append_right _ (List.mem_singleton.mpr rfl)
      · rw [List.pairwise_append]
        refine ⟨h2, List.pairwise_singleton .., ?_⟩
        intro a ha b hb2
        rw [List.mem_singleton.mp hb2]
        by_cases han : a.hora = "não encontrado"
        · exact Or.inl han
        · refine Or.inr ?_
          intro hEq
          have hEq2 : a.hora = i.hora := hEq
          have hmem : i.hora ∈ usados := by
            rw [← hEq2]
            exact (contains_iff usados a.hora).mp (h1 a ha han)
          have hcontra : usados.contains i.hora = true := (contains_iff ..).mpr hmem
          rw [hr3] at hcontra
          exact Bool.false_ne_true hcontra
      · intro t ht
        rcases List.mem_append.mp ht with hmem | hmem
        · exact h3 t hmem
        · rw [List.mem_singleton.mp hmem]
          exact Or.inr ⟨i, hi, rfl⟩

/-- Every record produced by the association pass is an inherited one or is
built from one of the collected value candidates. -/
theorem segundaPassagemGo_valor (dataF tipo arq : String) (hs : List HoraInfo) :
    ∀ (vs : List ValorInfo) (usados : List String) (ts : List Transacao) (t : Transacao),
      t ∈ segundaPassagemGo dataF tipo arq hs vs usados ts →
      t ∈ ts ∨ ∃ v ∈ vs, ∃ h : String, t = mkTransacao dataF tipo arq h v := by
  intro vs
  induction vs with
  | nil => intro usados ts t ht; exact Or.inl ht
  | cons v vs ih =>
    intro usados ts t ht
    rw [segundaPassagemGo] at ht
    rcases ih _ _ t ht with hmem | ⟨w, hw, h, heq⟩
    · rcases List.mem_append.mp hmem with hold | hnew
      · exact Or.inl hold
      · exact Or.inr ⟨v, List.mem_cons_self .., _, List.mem_singleton.mp hnew⟩
    · exact Or.inr ⟨w, List.mem_cons_of_mem _ hw, h, heq⟩

theorem horariosUsadosDe_contains (ts : List Transacao) (t : Transacao) (ht : t ∈ ts)
    (hn : t.hora ≠ "não encontrado") : (horariosUsadosDe ts).contains t.hora = true := by
  rw [contains_iff]
  exact List.mem_map.mpr ⟨t, List.mem_filter.mpr ⟨ht, by simpa using hn⟩, rfl⟩

/-- The orphan pass keeps the pairwise-distinct-times invariant: each
orphan time is outside both `horarios_usados` and the already-added set. -/
theorem terceiraPassagemGo_master (dataF tipo arq : String) (usados : List String) :
    ∀ (hs : List HoraInfo) (adicionados : List String) (ts : List Transacao),
      ts.Pairwise hrel →
      (∀ t ∈ ts, t.hora ≠ "não encontrado" →
        usados.contains t.hora = true ∨ adicionados.contains t.hora = true) →
      (terceiraPassagemGo dataF tipo arq usados hs adicionados ts).Pairwise hrel := by
  intro hs
  induction hs with
  | nil => intro adicionados ts h1 _; exact h1
  | cons h hs ih =>
    intro adicionados ts h1 h2
    rw [terceiraPassagemGo]
    split
    · rename_i hcond
      apply ih
      · rw [List.pairwise_append]
        refine ⟨h1, List.pairwise_singleton .., ?_⟩
        intro a ha b hb
        rw [List.mem_singleton.mp hb]
        by_cases han : a.hora = "não encontrado"
        · exact Or.inl han
        · refine Or.inr ?_
          intro hEq
          have hh1 : usados.contains h.hora = false := by simpa using hcond.2.1
          have hh2 : adicionados.contains h.hora = false := by simpa using hcond.2.2
          have hEq2 : a.hora = h.hora := hEq
          rcases h2 a ha han with hc | hc
          · rw [hEq2, hh1] at hc
            exact Bool.false_ne_true hc
          · rw [hEq2, hh2] at hc
            exact Bool.false_ne_true hc
      · intro t ht htn
        rcases List.mem_append.mp ht with hmem | hmem
        · rcases h2 t hmem htn with hc | hc
          · exact Or.inl hc
          · refine Or.inr ?_
            rw [contains_iff]
            exact List.mem_append_left _ ((contains_iff ..).mp hc)
        · rw [List.mem_singleton.mp hmem]
          refine Or.inr ?_
          rw [contains_iff]
          exact List.mem_append_right _ (List.mem_singleton.mpr rfl)
    · exact ih adicionados ts h1 h2

/-- Every record after the orphan pass is an association record or an
orphan built from a collected time candidate. -/
theorem terceiraPassagemGo_origin (dataF tipo arq : String) (usados : List String) :
    ∀ (hs : List HoraInfo) (adicionados : List String) (ts : List Transacao) (t : Transacao),
      t ∈ terceiraPassagemGo dataF tipo arq usados hs adicionados ts →
      t ∈ ts ∨ ∃ h ∈ hs, t = ⟨dataF, h.hora, "não encontrado", tipo, arq⟩ := by
  intro hs
  induction hs with
  | nil => intro adicionados ts t ht; exact Or.inl ht
  | cons h hs ih =>
    intro adicionados ts t ht
    rw [terceiraPassagemGo] at ht
    split at ht
    · rcases ih _ _ t ht with hmem | ⟨w, hw, heq⟩
      · rcases List.mem_append.mp hmem with hold | hnew
        · exact Or.inl hold
        · exact Or.inr ⟨h, List.mem_cons_self .., List.mem_singleton.mp hnew⟩
      · exact Or.inr ⟨w, List.mem_cons_of_mem _ hw, heq⟩
    · rcases ih _ _ t ht with hmem | ⟨w, hw, heq⟩
      · exact Or.inl hmem
      · exact Or.inr ⟨w, List.mem_cons_of_mem _ hw, heq⟩

theorem horariosValidos_bounds (n : Nat) (h : horariosValidos.contains n = true) :
    14 ≤ n ∧ n ≤ 23 := by
  rw [contains_iff] at h
  simp [horariosValidos] at h
  omega

/-- The shape every collected time candidate has: a zero-filled hour in the
valid 14–23 window, a colon, and a two-digit minute of value at most 59. -/
def HoraShape (s : String) : Prop :=
  ∃ g m : List Char, s = String.mk (zfill2 g ++ ':' :: m) ∧
    horariosValidos.contains (natOfDigits (zfill2 g)) = true ∧ natOfDigits m ≤ 59

theorem coletaHora_valores (i : Nat) (l : List Char) (st : PassState) :
    (coletaHora i l st).valores = st.valores := by
  simp only [coletaHora]
  repeat' split
  all_goals rfl

theorem coletaHora_horas (i : Nat) (l : List Char) (st : PassState) :
    ∀ info ∈ (coletaHora i l st).horas,
      info ∈ st.horas ∨ (info.linha = i ∧ HoraShape info.hora) := by
  intro info hmem
  simp only [coletaHora] at hmem
  split at hmem
  · rename_i g1 g2 hsearch
    split at hmem
    · rename_i hcond
      split at hmem
      · rcases List.mem_append.mp hmem with hold | hnew
        · exact Or.inl hold
        · rw [List.mem_singleton.mp hnew]
          exact Or.inr ⟨rfl, g1, g2, rfl, hcond.1, hcond.2⟩
      · exact Or.inl hmem
    · exact Or.inl hmem
  · split at hmem
    · rename_i g1 hsearch
      split at hmem
      · rename_i hcond
        split at hmem
        · rcases List.mem_append.mp hmem with hold | hnew
          · exact Or.inl hold
          · rw [List.mem_singleton.mp hnew]
            exact Or.inr ⟨rfl, g1, ['0', '0'], rfl, hcond, by decide⟩
        · exact Or.inl hmem
      · exact Or.inl hmem
    · exact Or.inl hmem

theorem passoLinha_horas (i : Nat) (lr : String) (st : PassState) :
    ∀ info ∈ (passoLinha i lr st).horas,
      info ∈ st.horas ∨ (info.linha = i ∧ HoraShape info.hora) := by
  intro info hmem
  simp only [passoLinha] at hmem
  split at hmem
  · exact Or.inl hmem
  · split at hmem
    · split at hmem
      · exact coletaHora_horas _ _ _ info hmem
      · split at hmem
        · rcases coletaHora_horas _ _ _ info hmem with hold | hnew
          · left
            split at hold
            · exact hold
            · exact hold
          · exact Or.inr hnew
        · exact Or.inl hmem
    · exact coletaHora_horas _ _ _ info hmem

theorem passoLinha_valores (i : Nat) (lr : String) (st : PassState) :
    ∀ v ∈ (passoLinha i lr st).valores,
      v ∈ st.valores ∨
        (searchM valorTxtAt (stripChars lr.data) = some v.valor ∧
         containsSub (stripChars lr.data) ['-', 'R', '$'] = false ∧
         pyFloat (v.valor.map fun c => if c = ',' then '.' else c) = some v.valorFloat ∧
         2 < v.valorFloat) := by
  intro v hmem
  simp only [passoLinha] at hmem
  split at hmem
  · exact Or.inl hmem
  · split at hmem
    · rename_i d hsearch
      split at hmem
      · rw [coletaHora_valores] at hmem
        exact Or.inl hmem
      · rename_i hneg
        split at hmem
        · rename_i q hfloat
          rw [coletaHora_valores] at hmem
          split at hmem
          · rename_i hq
            rcases List.mem_append.mp hmem with hold | hnew
            · exact Or.inl hold
            · rw [List.mem_singleton.mp hnew]
              exact Or.inr ⟨hsearch, by simpa using hneg, hfloat, hq⟩
          · exact Or.inl hmem
        · exact Or.inl hmem
    · rw [coletaHora_valores] at hmem
      exact Or.inl hmem

theorem primeiraPassagemGo_horas :
    ∀ (ls : List String) (i : Nat) (st : PassState) (info : HoraInfo),
      info ∈ (primeiraPassagemGo i ls st).horas →
      info ∈ st.horas ∨ HoraShape info.hora := by
  intro ls
  induction ls with
  | nil => intro i st info h; exact Or.inl h
  | cons l ls ih =>
    intro i st info h
    rw [primeiraPassagemGo] at h
    rcases ih (i + 1) _ info h with hin | hshape
    · rcases passoLinha_horas i l st info hin with hold | ⟨_, hs⟩
      · exact Or.inl hold
      · exact Or.inr hs
    · exact Or.inr hshape

theorem primeiraPassagemGo_linha :
    ∀ (ls : List String) (i : Nat) (st : PassState),
      (∀ info ∈ st.horas, info.linha < i) →
      ∀ info ∈ (primeiraPassagemGo i ls st).horas, info.linha < i + ls.length := by
  intro ls
  induction ls with
  | nil =>
    intro i st hst info h
    exact Nat.lt_of_lt_of_le (hst info h) (Nat.le_add_right ..)
  | cons l ls ih =>
    intro i st hst info h
    rw [primeiraPassagemGo] at h
    have hst2 : ∀ info2 ∈ (passoLinha i l st).horas, info2.linha < i + 1 := by
      intro info2 h2
      rcases passoLinha_horas i l st info2 h2 with hold | ⟨hl, _⟩
      · exact Nat.lt_succ_of_lt (hst info2 hold)
      · omega
    have := ih (i + 1) _ hst2 info h
    simpa [Nat.add_assoc, Nat.add_comm 1] using this

theorem primeiraPassagemGo_valores :
    ∀ (ls : List String) (i : Nat) (st : PassState) (v : ValorInfo),
      v ∈ (primeiraPassagemGo i ls st).valores →
      v ∈ st.valores ∨ ∃ lr ∈ ls,
        searchM valorTxtAt (stripChars lr.data) = some v.valor ∧
        containsSub (stripChars lr.data) ['-', 'R', '$'] = false ∧
        pyFloat (v.valor.map fun c => if c = ',' then '.' else c) = some v.valorFloat ∧
        2 < v.valorFloat := by
  intro ls
  induction ls with
  | nil => intro i st v h; exact Or.inl h
  | cons l ls ih =>
    intro i st v h
    rw [primeiraPassagemGo] at h
    rcases ih (i + 1) _ v h with hin | ⟨lr, hlr, hc⟩
    · rcases passoLinha_valores i l st v hin with hold | hc
      · exact Or.inl hold
      · exact Or.inr ⟨l, List.mem_cons_self .., hc⟩
    · exact Or.inr ⟨lr, List.mem_cons_of_mem _ hlr, hc⟩

/-- **C1.**  The marker-less decimal tier of the Amount Extractor
(`convert_value_to_float`, strategy 2) drops every pair whose integer part
is 00–23 and whose two fraction digits are 00–59 (`strategy2Keep` is the
filter the function applies to each such pair), and keeps every pair whose
integer part exceeds 23; on whole inputs with no currency marker anywhere,
a plausible-time pair therefore yields the `"Não encontrado"` sentinel
(`"16,37"`, `"16.37"`, `"23,59"`, and the spec's `"16:37"`), while
`"99,37"` is kept as the amount 99.37. -/
theorem claim1_markerless_time_filter :
    (∀ a b : Nat, a ≤ 23 → b ≤ 59 → strategy2Keep a b = false) ∧
    (∀ a b : Nat, 23 < a → strategy2Keep a b = true) ∧
    convert_value_to_float "16,37" = PyVal.notFound ∧
    convert_value_to_float "16.37" = PyVal.notFound ∧
    convert_value_to_float "23,59" = PyVal.notFound ∧
    convert_value_to_float "16:37" = PyVal.notFound ∧
    convert_value_to_float "99,37" = PyVal.num (Rat.divInt 9937 100) := by
  refine ⟨?_, ?_, by decide, by decide, by decide, by decide, by decide⟩
  · intro a b ha hb
    simp [strategy2Keep, ha, hb]
  · intro a b ha
    simp [strategy2Keep, Nat.not_le.mpr ha, ha]

/-- Witness for C1 at concrete inputs. -/
theorem claim1_markerless_time_filter_witness :
    strategy2Keep 16 37 = false ∧ strategy2Keep 99 37 = true :=
  ⟨claim1_markerless_time_filter.1 16 37 (by decide) (by decide),
   claim1_markerless_time_filter.2.1 99 37 (by decide)⟩

/-- **C2, counterexample.**  `"RS 16,37"` fed directly to
`convert_value_to_float` (without the OCR-confusion cleanup) does **not**
yield 16.37: the `RS → R$` repair lives only in `clean_and_process_text`,
so the direct path returns the sentinel. -/
theorem claim2_rs_direct_fails :
    convert_value_to_float "RS 16,37" = PyVal.notFound := by decide

/-- **C2, amended.**  All four OCR spellings normalize to 16.37 through the
cleanup-then-convert path (`clean_and_process_text` followed by
`convert_value_to_float`), and the three spellings that already contain the
literal `R$` marker also do so when passed to `convert_value_to_float`
directly; only `"RS 16,37"` needs the cleanup step. -/
theorem claim2_normalization_amended :
    convert_value_to_float (clean_and_process_text "R$ 16,37") = PyVal.num (Rat.divInt 1637 100) ∧
    convert_value_to_float (clean_and_process_text "R$.16,37") = PyVal.num (Rat.divInt 1637 100) ∧
    convert_value_to_float (clean_and_process_text "R$16,37") = PyVal.num (Rat.divInt 1637 100) ∧
    convert_value_to_float (clean_and_process_text "RS 16,37") = PyVal.num (Rat.divInt 1637 100) ∧
    convert_value_to_float "R$ 16,37" = PyVal.num (Rat.divInt 1637 100) ∧
    convert_value_to_float "R$.16,37" = PyVal.num (Rat.divInt 1637 100) ∧
    convert_value_to_float "R$16,37" = PyVal.num (Rat.divInt 1637 100) := by
  refine ⟨by decide, by decide, by decide, by decide, by decide, by decide, by decide⟩

/-- **C3.**  A transaction row is emitted by `process_single_json` only
when the validated amount is a number ≥ 1.00 or the extracted time differs
from the sentinel; with neither, the decision step returns `none`
(the transaction is discarded); `validate_minimum_value` converts every
numeric amount < 1.00 to the sentinel and keeps 1.00 unchanged. -/
theorem claim3_emission_invariant :
    (∀ (tx : TxIn) (t : String) (v : PyVal), processTransaction tx = some (t, v) →
      (∃ q : ℚ, v = PyVal.num q ∧ 1 ≤ q) ∨ t ≠ "Não encontrado") ∧
    (∀ (ts : String) (v : PyVal),
      (¬ ∃ q : ℚ, v = PyVal.num q ∧ 1 ≤ q) → ts = "Não encontrado" →
      emitDecision ts v = none) ∧
    (∀ q : ℚ, q < 1 → validate_minimum_value (PyVal.num q) = PyVal.notFound) ∧
    validate_minimum_value (PyVal.num 1) = PyVal.num 1 := by
  have emit : ∀ (a : String) (b : PyVal) (t : String) (v : PyVal),
      emitDecision a b = some (t, v) →
      (∃ q : ℚ, v = PyVal.num q ∧ 1 ≤ q) ∨ t ≠ "Não encontrado" := by
    intro a b t v h
    unfold emitDecision at h
    split at h
    · rename_i hcond
      injection h with h2
      obtain ⟨rfl, rfl⟩ := Prod.mk.injEq .. ▸ h2
      rcases Bool.or_eq_true .. |>.mp hcond with hl | hr
      · cases b with
        | num q => exact Or.inl ⟨q, rfl, of_decide_eq_true hl⟩
        | notFound => exact absurd hl (by simp)
      · exact Or.inr (of_decide_eq_true hr)
    · exact absurd h (by simp)
  refine ⟨?_, ?_, ?_, by decide⟩
  · intro tx t v h
    unfold processTransaction at h
    exact emit _ _ _ _ h
  · intro ts v hv hts
    unfold emitDecision
    rw [if_neg]
    intro hcond
    rcases Bool.or_eq_true .. |>.mp hcond with hl | hr
    · cases v with
      | num q => exact hv ⟨q, rfl, of_decide_eq_true hl⟩
      | notFound => exact absurd hl (by simp)
    · exact (of_decide_eq_true hr) hts
  · intro q hq
    simp [validate_minimum_value, not_le.mpr hq]

/-- Witness for C3 at concrete inputs. -/
theorem claim3_emission_invariant_witness :
    processTransaction ⟨"14:05", "", "R$ 5,00"⟩ = some ("14:05", PyVal.num 5) ∧
    ((∃ q : ℚ, PyVal.num 5 = PyVal.num q ∧ 1 ≤ q) ∨ "14:05" ≠ "Não encontrado") ∧
    emitDecision "Não encontrado" PyVal.notFound = none ∧
    validate_minimum_value (PyVal.num (1 / 2)) = PyVal.notFound :=
  ⟨by decide,
   claim3_emission_invariant.1 ⟨"14:05", "", "R$ 5,00"⟩ "14:05" (PyVal.num 5) (by decide),
   claim3_emission_invariant.2.1 "Não encontrado" PyVal.notFound (by simp) rfl,
   claim3_emission_invariant.2.2.1 (1 / 2) (by norm_num)⟩

/-- **C5.**  Whenever `n ≥ 1` distinct non-empty trimmed texts survive the
OCR Ensemble's deduplication, the estimated confidence of
`extract_text_with_confidence` equals `min 90 (30 + 10·n)`; that formula is
monotone in `n`, takes the values 40, 50, 70 at `n` = 1, 2, 4, and never
exceeds 90. -/
theorem claim5_confidence_formula :
    (∀ texts : List String, 1 ≤ (uniqueTexts texts).length →
      (extract_text_merge texts).2 = estimatedConfidence (uniqueTexts texts).length) ∧
    (∀ m n : Nat, m ≤ n → estimatedConfidence m ≤ estimatedConfidence n) ∧
    estimatedConfidence 1 = 40 ∧ estimatedConfidence 2 = 50 ∧
    estimatedConfidence 4 = 70 ∧ (∀ n : Nat, estimatedConfidence n ≤ 90) := by
  refine ⟨?_, ?_, rfl, rfl, rfl, fun n => min_le_left _ _⟩
  · intro texts h
    unfold extract_text_merge
    have hne : (uniqueTexts texts).isEmpty = false := by
      cases hu : uniqueTexts texts with
      | nil => rw [hu] at h; simp at h
      | cons a as => simp
    simp [hne]
  · intro m n h
    unfold estimatedConfidence
    have : 30 + m * 10 ≤ 30 + n * 10 := by omega
    omega

/-- Witness for C5 at concrete inputs. -/
theorem claim5_confidence_formula_witness :
    (extract_text_merge ["a"]).2 = estimatedConfidence (uniqueTexts ["a"]).length ∧
    estimatedConfidence 2 ≤ estimatedConfidence 4 :=
  ⟨claim5_confidence_formula.1 ["a"] (by decide),
   claim5_confidence_formula.2.1 2 4 (by decide)⟩

/-- **C7.**  The three field-extraction functions are total on every input
(the embedding threads each fallible `float`/`int` conversion through
`Option`, exactly where the source wraps it in `try/except`) and always
return either an extracted value or the `"Não encontrado"` sentinel — never
an error. -/
theorem claim7_extractors_total :
    ∀ (s : String) (dates : List String),
      (convert_value_to_float s = PyVal.notFound ∨
        ∃ q : ℚ, convert_value_to_float s = PyVal.num q) ∧
      (extract_time_from_text s = "Não encontrado" ∨
        ∃ p, extract_time_from_text s = formatTimeMatch p) ∧
      (convert_date_format dates = "Não encontrado" ∨
        ∃ d w y : List Char, convert_date_format dates = formatDate d w y) := by
  intro s dates
  refine ⟨?_, ?_, ?_⟩
  · cases h : convert_value_to_float s with
    | num q => exact Or.inr ⟨q, rfl⟩
    | notFound => exact Or.inl rfl
  · unfold extract_time_from_text
    split
    · exact Or.inl rfl
    · split
      · exact Or.inl rfl
      · exact Or.inr ⟨_, rfl⟩
  · unfold convert_date_format
    split
    · exact Or.inl rfl
    · split
      · exact Or.inr ⟨_, _, _, rfl⟩
      · exact Or.inl rfl


theorem buscaMelhor_single_hit (usados : List String) (vl : Nat) (t : HoraInfo)
    (hvalid : horariosValidos.contains (horaIntOf t.hora) = true)
    (hused : usados.contains t.hora = false)
    (hdist : max t.linha vl - min t.linha vl ≤ 3) :
    buscaMelhor usados vl [t] ("não encontrado", none, none) =
      (t.hora, some (max t.linha vl - min t.linha vl), some t) := by
  simp only [buscaMelhor]
  rw [if_pos ⟨hvalid, by intro hmem; rw [hused] at hmem; exact Bool.false_ne_true hmem,
    hdist, by simp⟩]

theorem buscaMelhor_single_miss (usados : List String) (vl : Nat) (t : HoraInfo)
    (hused : usados.contains t.hora = true) :
    buscaMelhor usados vl [t] ("não encontrado", none, none) =
      ("não encontrado", none, none) := by
  simp only [buscaMelhor]
  rw [if_neg (fun hcond => hcond.2.1 hused)]

/-- **C4, counterexample.**  Input where two amount candidates (lines 0 and
2) both lie within 3 lines of a single time candidate (line 3): the nearer
amount is `R$ 20,00` (distance 1), yet the code pairs `15:30` with
`R$ 10,00` (distance 3), because the association loop walks the amounts in
order of occurrence, not by distance; `R$ 20,00` ends with the sentinel. -/
theorem claim4_nearest_counterexample :
    ((extract_transactions_core "30/09/2025" "Crédito" "ref"
        ["R$ 10,00", "", "R$ 20,00", "15:30"]).map fun t => (t.hora, t.valor)) =
      [("15:30", "R$ 10,00"), ("não encontrado", "R$ 20,00")] ∧
    ¬ ("15:30", "R$ 20,00") ∈
        ((extract_transactions_core "30/09/2025" "Crédito" "ref"
          ["R$ 10,00", "", "R$ 20,00", "15:30"]).map fun t => (t.hora, t.valor)) := by
  refine ⟨by decide, by decide⟩

/-- **C4, amended.**  The associator walks the amount candidates in order of
occurrence; each takes its nearest not-yet-used valid time within 3 lines.
Hence with a single time candidate within range of two amount candidates,
the amount occurring first is paired with it and the other gets
`"não encontrado"`; a time, once paired, is never paired with a second
amount (each concrete time appears at most once in the association pass's
output). -/
theorem claim4_amended_order_wins :
    (∀ (dataF tipo arq : String) (v1 v2 : ValorInfo) (t : HoraInfo),
      horariosValidos.contains (horaIntOf t.hora) = true →
      max t.linha v1.linha - min t.linha v1.linha ≤ 3 →
      max t.linha v2.linha - min t.linha v2.linha ≤ 3 →
      segundaPassagem dataF tipo arq [v1, v2] [t] =
        [mkTransacao dataF tipo arq t.hora v1,
         mkTransacao dataF tipo arq "não encontrado" v2]) ∧
    (∀ (dataF tipo arq : String) (vs : List ValorInfo) (hs : List HoraInfo) (h : String),
      h ≠ "não encontrado" →
      (segundaPassagem dataF tipo arq vs hs).countP (fun t => t.hora == h) ≤ 1) := by
  constructor
  · intro dataF tipo arq v1 v2 t hvalid h1 h2
    unfold segundaPassagem
    rw [segundaPassagemGo]
    rw [buscaMelhor_single_hit [] v1.linha t hvalid rfl h1]
    simp only [List.nil_append]
    rw [segundaPassagemGo]
    rw [buscaMelhor_single_miss [t.hora] v2.linha t (by simp)]
    simp only [List.nil_append]
    rw [segundaPassagemGo]
    rfl
  · intro dataF tipo arq vs hs h hh
    apply pairwise_countP_le_one _ _ h hh
    exact (segundaPassagemGo_master dataF tipo arq hs vs [] []
      (by intro t ht; exact absurd ht (List.not_mem_nil t))
      List.Pairwise.nil
      (by intro t ht; exact absurd ht (List.not_mem_nil t))).1

/-- Witness for the amended C4 at concrete inputs. -/
theorem claim4_amended_order_wins_witness :
    segundaPassagem "d" "C" "r" [⟨0, ['1', '0'], 10⟩, ⟨2, ['2', '0'], 20⟩] [⟨3, "15:30"⟩] =
      [mkTransacao "d" "C" "r" "15:30" ⟨0, ['1', '0'], 10⟩,
       mkTransacao "d" "C" "r" "não encontrado" ⟨2, ['2', '0'], 20⟩] ∧
    (segundaPassagem "d" "C" "r" [⟨0, ['1', '0'], 10⟩, ⟨2, ['2', '0'], 20⟩]
      [⟨3, "15:30"⟩]).countP (fun t => t.hora == "15:30") ≤ 1 :=
  ⟨claim4_amended_order_wins.1 "d" "C" "r" ⟨0, ['1', '0'], 10⟩ ⟨2, ['2', '0'], 20⟩
      ⟨3, "15:30"⟩ (by decide) (by decide) (by decide),
   claim4_amended_order_wins.2 "d" "C" "r" _ _ "15:30" (by decide)⟩

/-- **C6, counterexample.**  On `"14:05 15:30"` the time pattern has two
matches, but `extract_time_from_text` returns only the first formatted
match — a single string with no position information. -/
theorem claim6_first_only_counterexample :
    findTimeMatches "14:05 15:30".data =
      [(['1', '4'], ['0', '5']), (['1', '5'], ['3', '0'])] ∧
    extract_time_from_text "14:05 15:30" = "14:05" := by
  refine ⟨by decide, by decide⟩

/-- **C6, amended.**  `extract_time_from_text` returns only the first of the
pattern's matches (formatted; later matches and all positions are
discarded); it is the per-line collection loop of
`extract_transactions_from_ocr` that records time candidates with their
positions, every collected candidate carrying a genuine line index. -/
theorem claim6_amended_first_only :
    (∀ (s : String) (p : List Char × List Char) (rest : List (List Char × List Char)),
      s ≠ "" → findTimeMatches s.data = p :: rest →
      extract_time_from_text s = formatTimeMatch p) ∧
    (∀ (linhas : List String) (info : HoraInfo),
      info ∈ (primeiraPassagem linhas).horas → info.linha < linhas.length) := by
  constructor
  · intro s p rest hs hm
    unfold extract_time_from_text
    split
    · rename_i hemp
      exfalso
      apply hs
      cases s with
      | mk l =>
        cases l with
        | nil => rfl
        | cons c cs => simp at hemp
    · rw [hm]
  · intro linhas info h
    have := primeiraPassagemGo_linha linhas 0 ⟨[], [], []⟩
      (by intro info h0; exact absurd h0 (List.not_mem_nil info)) info h
    simpa using this

/-- Witness for the amended C6 at concrete inputs. -/
theorem claim6_amended_first_only_witness :
    extract_time_from_text "14:05 15:30" = formatTimeMatch (['1', '4'], ['0', '5']) ∧
    (⟨0, "15:30"⟩ : HoraInfo).linha < (["15:30"] : List String).length :=
  ⟨claim6_amended_first_only.1 "14:05 15:30" (['1', '4'], ['0', '5'])
      [(['1', '5'], ['3', '0'])] (by decide) (by decide),
   claim6_amended_first_only.2 ["15:30"] ⟨0, "15:30"⟩ (by decide)⟩

/-- **C8.**  In the output of `extract_transactions_from_ocr` for one file,
each concrete time string other than the sentinel appears in at most one
record: a paired time is marked used and never re-attached, and an orphan
time is emitted at most once. -/
theorem claim8_time_appears_once :
    ∀ (dataF tipo arq : String) (rawLinhas : List String) (h : String),
      h ≠ "não encontrado" →
      (extract_transactions_core dataF tipo arq rawLinhas).countP
        (fun t => t.hora == h) ≤ 1 := by
  intro dataF tipo arq raw h hh
  unfold extract_transactions_core
  rw [(sortTransacoes_perm _).countP_eq]
  apply pairwise_countP_le_one _ _ h hh
  unfold terceiraPassagem
  apply terceiraPassagemGo_master
  · exact (segundaPassagemGo_master dataF tipo arq _ _ [] []
      (by intro t ht; exact absurd ht (List.not_mem_nil t))
      List.Pairwise.nil
      (by intro t ht; exact absurd ht (List.not_mem_nil t))).1
  · intro t ht htn
    exact Or.inl (horariosUsadosDe_contains _ t ht htn)

/-- Witness for C8 at a concrete input file. -/
theorem claim8_time_appears_once_witness :
    (extract_transactions_core "d" "C" "r"
      ["R$ 10,00", "15:30", "R$ 20,00", "15:30"]).countP
        (fun t => t.hora == "15:30") ≤ 1 :=
  claim8_time_appears_once "d" "C" "r" ["R$ 10,00", "15:30", "R$ 20,00", "15:30"]
    "15:30" (by decide)

/-- **C9.**  A value candidate is collected only when the parsed amount
exceeds 2.0 and the line does not contain `-R$`; consequently every
amount-bearing record returned by `extract_transactions_from_ocr` carries a
parsed value strictly greater than 2.00 from a non-negated line — a
stricter floor than the associator's 1.00. -/
theorem claim9_amount_floor :
    ∀ (dataF tipo arq : String) (rawLinhas : List String) (t : Transacao),
      t ∈ extract_transactions_core dataF tipo arq rawLinhas →
      t.valor = "não encontrado" ∨
      ∃ v : ValorInfo, t.valor = "R$ " ++ String.mk v.valor ∧ 2 < v.valorFloat ∧
        ∃ lr ∈ linhasDe rawLinhas,
          searchM valorTxtAt (stripChars lr.data) = some v.valor ∧
          containsSub (stripChars lr.data) ['-', 'R', '$'] = false ∧
          pyFloat (v.valor.map fun c => if c = ',' then '.' else c) = some v.valorFloat := by
  intro dataF tipo arq raw t ht
  unfold extract_transactions_core at ht
  rw [(sortTransacoes_perm _).mem_iff] at ht
  unfold terceiraPassagem at ht
  rcases terceiraPassagemGo_origin _ _ _ _ _ _ _ t ht with h2 | ⟨w, hw, heq⟩
  · unfold segundaPassagem at h2
    rcases segundaPassagemGo_valor _ _ _ _ _ _ _ t h2 with hnil | ⟨v, hv, hh, heq⟩
    · exact absurd hnil (List.not_mem_nil t)
    · rcases primeiraPassagemGo_valores _ 0 _ v hv with h0 | ⟨lr, hlr, hc1, hc2, hc3, hc4⟩
      · exact absurd h0 (List.not_mem_nil v)
      · exact Or.inr ⟨v, by rw [heq]; rfl, hc4, lr, hlr, hc1, hc2, hc3⟩
  · rw [heq]
    exact Or.inl rfl

/-- Witness for C9 at a concrete record. -/
theorem claim9_amount_floor_witness :
    mkTransacao "d" "C" "r" "15:30" ⟨0, ['1', '0', ',', '0', '0'], 10⟩ ∈
      extract_transactions_core "d" "C" "r" ["R$ 10,00", "", "R$ 20,00", "15:30"] ∧
    ((mkTransacao "d" "C" "r" "15:30" ⟨0, ['1', '0', ',', '0', '0'], 10⟩).valor =
        "não encontrado" ∨
      ∃ v : ValorInfo,
        (mkTransacao "d" "C" "r" "15:30" ⟨0, ['1', '0', ',', '0', '0'], 10⟩).valor =
          "R$ " ++ String.mk v.valor ∧ 2 < v.valorFloat ∧
        ∃ lr ∈ linhasDe ["R$ 10,00", "", "R$ 20,00", "15:30"],
          searchM valorTxtAt (stripChars lr.data) = some v.valor ∧
          containsSub (stripChars lr.data) ['-', 'R', '$'] = false ∧
          pyFloat (v.valor.map fun c => if c = ',' then '.' else c) = some v.valorFloat) :=
  ⟨by decide,
   claim9_amount_floor "d" "C" "r" ["R$ 10,00", "", "R$ 20,00", "15:30"]
     (mkTransacao "d" "C" "r" "15:30" ⟨0, ['1', '0', ',', '0', '0'], 10⟩) (by decide)⟩

/-- **C10.**  Every time candidate collected by the first pass is a
`HH:MM` string with hour 14–23 and minute at most 59 (times outside the
window are dropped at collection), and hence every record returned by
`extract_transactions_from_ocr` has either the sentinel or a time within
14:00–23:59. -/
theorem claim10_time_window :
    (∀ (linhas : List String) (info : HoraInfo), info ∈ (primeiraPassagem linhas).horas →
      ∃ g m : List Char, info.hora = String.mk (zfill2 g ++ ':' :: m) ∧
        14 ≤ natOfDigits (zfill2 g) ∧ natOfDigits (zfill2 g) ≤ 23 ∧ natOfDigits m ≤ 59) ∧
    (∀ (dataF tipo arq : String) (rawLinhas : List String) (t : Transacao),
      t ∈ extract_transactions_core dataF tipo arq rawLinhas →
      t.hora = "não encontrado" ∨
      ∃ g m : List Char, t.hora = String.mk (zfill2 g ++ ':' :: m) ∧
        14 ≤ natOfDigits (zfill2 g) ∧ natOfDigits (zfill2 g) ≤ 23 ∧ natOfDigits m ≤ 59) := by
  have base : ∀ (linhas : List String) (info : HoraInfo),
      info ∈ (primeiraPassagem linhas).horas →
      ∃ g m : List Char, info.hora = String.mk (zfill2 g ++ ':' :: m) ∧
        14 ≤ natOfDigits (zfill2 g) ∧ natOfDigits (zfill2 g) ≤ 23 ∧ natOfDigits m ≤ 59 := by
    intro linhas info h
    rcases primeiraPassagemGo_horas linhas 0 ⟨[], [], []⟩ info h with h0 | ⟨g, m, heq, hc, hm⟩
    · exact absurd h0 (List.not_mem_nil info)
    · obtain ⟨hlo, hhi⟩ := horariosValidos_bounds _ hc
      exact ⟨g, m, heq, hlo, hhi, hm⟩
  refine ⟨base, ?_⟩
  intro dataF tipo arq raw t ht
  unfold extract_transactions_core at ht
  rw [(sortTransacoes_perm _).mem_iff] at ht
  unfold terceiraPassagem at ht
  rcases terceiraPassagemGo_origin _ _ _ _ _ _ _ t ht with h2 | ⟨w, hw, heq⟩
  · unfold segundaPassagem at h2
    rcases (segundaPassagemGo_master dataF tipo arq _ _ [] []
        (by intro a ha; exact absurd ha (List.not_mem_nil a))
        List.Pairwise.nil
        (by intro a ha; exact absurd ha (List.not_mem_nil a))).2 t h2 with hnf | ⟨i, hi, heqh⟩
    · exact Or.inl hnf
    · rw [heqh]
      exact Or.inr (base _ i hi)
  · rw [heq]
    exact Or.inr (base _ w hw)

/-- Witness for C10 at concrete inputs. -/
theorem claim10_time_window_witness :
    ((⟨1, "15:30"⟩ : HoraInfo) ∈
      (primeiraPassagem ["R$ 10,00", "15:30"]).horas) ∧
    (∃ g m : List Char, (⟨1, "15:30"⟩ : HoraInfo).hora = String.mk (zfill2 g ++ ':' :: m) ∧
      14 ≤ natOfDigits (zfill2 g) ∧ natOfDigits (zfill2 g) ≤ 23 ∧ natOfDigits m ≤ 59) :=
  ⟨by decide,
   claim10_time_window.1 ["R$ 10,00", "15:30"] ⟨1, "15:30"⟩ (by decide)⟩

end PastelariaVN
